import Mathlib

deriving instance DecidableEq for Except

/-!
# MoodMuse — multimodal feature-fusion and recommendation-ranking engine

A shallow embedding of the MoodMuse recommendation core and of the frontend
helper functions, together with theorems about them.

The recommendation core (FeatureFusion, SimilarityEngine, MoodMapper,
RecommendationEngine) is specified in the repository's design document; the
frontend components (`MoodSelector.js`, `Dashboard.js`, `RecommendationCard`,
`AudioPlayer`) are embedded directly from their JavaScript source.  JavaScript
numbers are modelled by `ℚ`; `undefined`/`null`/`NaN` inputs are modelled by
`Option`.
-/

namespace MoodMuse

/-- Modelled from the spec: the error taxonomy of §7 (the backend engine code
is not in the repository snapshot; only the spec describes it). -/
inductive EngineError
  | dimensionMismatch
  | degenerateVector
  | unknownMood
  | insufficientHistory
deriving DecidableEq, Repr

/-- Sum of squares of a vector's entries (the squared Euclidean norm). -/
def sumSq (v : List ℚ) : ℚ := (v.map (fun x => x * x)).sum

/-- Dot product of two vectors (zipWith truncates at the shorter length). -/
def dot (a b : List ℚ) : ℚ := (List.zipWith (· * ·) a b).sum

/-- Normalization mode of a fusion policy: none, or L2-unit-norm. -/
inductive NormMode
  | noNorm
  | l2UnitNorm
deriving DecidableEq, Repr

/-- Modelled from the spec: a FusionPolicy is an immutable {modality → weight}
configuration plus a normalization mode (§3). -/
structure FusionPolicy where
  wAudio : ℚ
  wImage : ℚ
  wText : ℚ
  normalization : NormMode
deriving DecidableEq, Repr

/-- The modality-specific expected vector lengths, constant across songs. -/
structure Dims where
  dAudio : Nat
  dImage : Nat
  dText : Nat
deriving DecidableEq, Repr

/-- A song's per-modality vectors; `none` is a missing modality. -/
structure ModalityInput where
  audio : Option (List ℚ)
  image : Option (List ℚ)
  text : Option (List ℚ)
deriving DecidableEq, Repr

/-- A supplied modality vector must have the expected length; a missing one is
not an error. -/
def lenOK (v : Option (List ℚ)) (d : Nat) : Bool :=
  match v with
  | none => true
  | some w => w.length == d

/-- All three modality inputs agree with the recorded lengths. -/
def lensValid (dims : Dims) (inp : ModalityInput) : Bool :=
  lenOK inp.audio dims.dAudio && lenOK inp.image dims.dImage && lenOK inp.text dims.dText

/-- Modelled from the spec (§4.1): a modality with weight > 0 contributes its
vector (zero-filled when missing) scaled componentwise by the weight; a weight
of 0 excludes the modality entirely (it contributes no dimensions). -/
def weightedPart (w : ℚ) (v : Option (List ℚ)) (d : Nat) : List ℚ :=
  if 0 < w then (v.getD (List.replicate d 0)).map (fun x => w * x) else []

/-- The concatenated weighted vector, in the fixed modality order
audio, image, text. -/
def fuseConcat (dims : Dims) (inp : ModalityInput) (p : FusionPolicy) : List ℚ :=
  weightedPart p.wAudio inp.audio dims.dAudio ++
    weightedPart p.wImage inp.image dims.dImage ++
      weightedPart p.wText inp.text dims.dText

/-- Modelled from the spec (§4.1): `fuse(songVectors, policy)`.  Length
mismatches fail with `DimensionMismatchError`; in L2-unit-norm mode a
zero-norm concatenation fails with `DegenerateVectorError`.  The concrete code
then divides by the Euclidean norm, which is irrational in general; the model
returns the pre-normalization vector after performing the degeneracy check,
and the unit-norm property of the normalized result is stated over `ℝ` in the
corresponding theorem. -/
def fuse (dims : Dims) (inp : ModalityInput) (p : FusionPolicy) :
    Except EngineError (List ℚ) :=
  if lensValid dims inp then
    match p.normalization with
    | NormMode.noNorm => Except.ok (fuseConcat dims inp p)
    | NormMode.l2UnitNorm =>
        if sumSq (fuseConcat dims inp p) = 0 then Except.error EngineError.degenerateVector
        else Except.ok (fuseConcat dims inp p)
  else Except.error EngineError.dimensionMismatch

/-- A candidate song: identifier plus its fused vector. -/
structure Candidate where
  id : String
  vec : List ℚ
deriving DecidableEq, Repr

/-- A ranked result.  The cosine score `dot / (‖q‖·‖c‖)` is irrational in
general, so it is carried exactly as the pair of its numerator `dot` and the
square `normProd = ‖q‖²·‖c‖²` of its denominator: the score's value is
`dot / √normProd`. -/
structure RankedResult where
  id : String
  dot : ℚ
  normProd : ℚ
deriving DecidableEq, Repr

/-- `scoreLtB d1 n1 d2 n2` decides `d1/√n1 < d2/√n2` for positive `n1 n2`
using only rational arithmetic (comparing signs, then squares). -/
def scoreLtB (d1 n1 d2 n2 : ℚ) : Bool :=
  if d1 < 0 then
    if 0 ≤ d2 then true
    else decide (d2 * d2 * n1 < d1 * d1 * n2)
  else
    if d2 ≤ 0 then false
    else decide (d1 * d1 * n2 < d2 * d2 * n1)

/-- Score equality: neither score is less than the other. -/
def scoreEqB (d1 n1 d2 n2 : ℚ) : Bool :=
  !scoreLtB d1 n1 d2 n2 && !scoreLtB d2 n2 d1 n1

/-- Modelled from the spec (§4.3): `a` strictly precedes `b` in the ranking
when `a`'s similarity is greater, or the similarities tie and `a`'s candidate
identifier is smaller (ascending-identifier tie-break). -/
def rankedBefore (a b : RankedResult) : Bool :=
  scoreLtB b.dot b.normProd a.dot a.normProd ||
    (scoreEqB a.dot a.normProd b.dot b.normProd && decide (a.id < b.id))

/-- Insert a result into a list sorted by `rankedBefore`. -/
def insertRanked (r : RankedResult) : List RankedResult → List RankedResult
  | [] => [r]
  | x :: xs => if rankedBefore r x then r :: x :: xs else x :: insertRanked r xs

/-- Insertion sort by `rankedBefore` (descending similarity, ties by
ascending identifier). -/
def sortRanked : List RankedResult → List RankedResult
  | [] => []
  | x :: xs => insertRanked x (sortRanked xs)

/-- The ranked entry for one candidate: its cosine score against the query,
carried as the exact pair (dot, ‖q‖²·‖c‖²). -/
def scoreOf (q : List ℚ) (c : Candidate) : RankedResult :=
  ⟨c.id, dot q c.vec, sumSq q * sumSq c.vec⟩

/-- `hasScore r x` reads the carried score pair as its real value:
`r.dot / √r.normProd = x`, phrased multiplicatively to avoid division. -/
def hasScore (r : RankedResult) (x : ℝ) : Prop :=
  (r.dot : ℝ) = x * Real.sqrt ((r.normProd : ℚ) : ℝ)

/-- `sortOK a b`: in an output list, `b` may follow `a` — `b` does not
strictly precede `a` under descending-similarity order with the
ascending-identifier tie-break. -/
def sortOK (a b : RankedResult) : Prop := rankedBefore b a = false

/-- Modelled from the spec (§4.3): score each candidate against the query.
Zero-norm candidates are skipped (not scored as 0); a zero-norm query makes
the cosine undefined, failing with `DegenerateVectorError`. -/
def collectScores (q : List ℚ) : List Candidate → Except EngineError (List RankedResult)
  | [] => Except.ok []
  | c :: rest =>
    if sumSq c.vec = 0 then collectScores q rest
    else if sumSq q = 0 then Except.error EngineError.degenerateVector
    else
      match collectScores q rest with
      | Except.error e => Except.error e
      | Except.ok rs => Except.ok (scoreOf q c :: rs)

/-- Modelled from the spec (§4.3): `rank(query, candidates, k)`.  Fails with
`DimensionMismatchError` if any candidate's fused vector differs in length
from the query; otherwise scores, sorts descending by similarity with the
ascending-identifier tie-break, and keeps the top `k` (`k ≤ 0` keeps none). -/
def rank (q : List ℚ) (cs : List Candidate) (k : Int) :
    Except EngineError (List RankedResult) :=
  if cs.any (fun c => c.vec.length != q.length) then
    Except.error EngineError.dimensionMismatch
  else
    match collectScores q cs with
    | Except.error e => Except.error e
    | Except.ok rs => Except.ok ((sortRanked rs).take k.toNat)

/-- Modelled from the spec (§4.3, glossary): cosine similarity, carried as the
exact pair (dot, ‖a‖²·‖b‖²); it is undefined (`none`) between vectors of
different dimensionality and when either norm is zero. -/
def cosineSimParts (a b : List ℚ) : Option (ℚ × ℚ) :=
  if a.length ≠ b.length then none
  else if sumSq a = 0 ∨ sumSq b = 0 then none
  else some (dot a b, sumSq a * sumSq b)

/-- Modelled from the spec (§4.2): MoodMapper's static table from the closed
set of mood labels to target coefficients.  The exact coefficient values are
not in the repository snapshot; representative audio-heavy values are chosen —
the claims settled here depend only on the label set, never on the numbers. -/
def moodTable : List (String × List ℚ) :=
  [("happy", [9/10, 7/10, 3/10]),
   ("sad", [2/10, 3/10, 8/10]),
   ("energetic", [1, 8/10, 2/10]),
   ("calm", [1/10, 2/10, 6/10]),
   ("romantic", [4/10, 5/10, 9/10]),
   ("melancholic", [3/10, 2/10, 7/10])]

/-- Modelled from the spec (§4.2): `vectorForMood(label)` succeeds exactly on
the labels of the static table and fails with `UnknownMoodError` otherwise. -/
def vectorForMood (label : String) : Except EngineError (List ℚ) :=
  match moodTable.lookup label with
  | some v => Except.ok v
  | none => Except.error EngineError.unknownMood

/-- Modelled from the spec (§6, §4.4): `recommendByMood(label, k)` builds the
query via `vectorForMood` and ranks; an unknown label propagates
`UnknownMoodError` with no silent fallback. -/
def recommendByMood (label : String) (cs : List Candidate) (k : Int) :
    Except EngineError (List RankedResult) :=
  match vectorForMood label with
  | Except.error e => Except.error e
  | Except.ok q => rank q cs k

/-- Componentwise vector sum (zipWith truncates at the shorter length). -/
def vecAdd (a b : List ℚ) : List ℚ := List.zipWith (· + ·) a b

/-- Componentwise scaling of a vector. -/
def vecScale (c : ℚ) (v : List ℚ) : List ℚ := v.map (fun x => c * x)

/-- Componentwise sum of a list of vectors. -/
def sumVecs : List (List ℚ) → List ℚ
  | [] => []
  | [v] => v
  | v :: w :: rest => vecAdd v (sumVecs (w :: rest))

/-- The centroid (componentwise mean) of a list of vectors. -/
def centroid (vs : List (List ℚ)) : List ℚ :=
  vecScale (1 / (vs.length : ℚ)) (sumVecs vs)

/-- Fuse every input under one policy, propagating the first error. -/
def fuseAll (dims : Dims) (p : FusionPolicy) :
    List ModalityInput → Except EngineError (List (List ℚ))
  | [] => Except.ok []
  | i :: rest =>
    match fuse dims i p with
    | Except.error e => Except.error e
    | Except.ok v =>
      match fuseAll dims p rest with
      | Except.error e => Except.error e
      | Except.ok vs => Except.ok (v :: vs)

/-- Modelled from the spec (§4.4, §7): the personalization query is the
centroid of the fused vectors of the user's liked/played songs, each fused
under the by-song policy; zero liked songs fail with
`InsufficientHistoryError`. -/
def personalizedQuery (dims : Dims) (p : FusionPolicy) (liked : List ModalityInput) :
    Except EngineError (List ℚ) :=
  match liked with
  | [] => Except.error EngineError.insufficientHistory
  | _ :: _ =>
    match fuseAll dims p liked with
    | Except.error e => Except.error e
    | Except.ok vs => Except.ok (centroid vs)

/-- Modelled from the spec (§6): `recommendPersonalized(userId, k)`, with the
user's liked/played songs' modality vectors already fetched. -/
def recommendPersonalized (dims : Dims) (p : FusionPolicy)
    (liked : List ModalityInput) (cs : List Candidate) (k : Int) :
    Except EngineError (List RankedResult) :=
  match personalizedQuery dims p liked with
  | Except.error e => Except.error e
  | Except.ok q => rank q cs k

/-- The componentwise mean written the way the spec words it: entry `i` is the
sum of the `i`-th entries divided by the number of vectors.  Stated as a
second definition to be compared with the implementation's `centroid`. -/
def specMeanVec (n : Nat) (vs : List (List ℚ)) : List ℚ :=
  (List.range n).map (fun i => (vs.map (fun v => v.getD i 0)).sum / (vs.length : ℚ))

/-! ## Frontend embeddings (from `src/frontend` and the unnamed components) -/

/-- One entry of the `moods` array of `MoodSelector.js` (the SVG icon is
presentation-only and omitted). -/
structure MoodOption where
  id : String
  name : String
  color : String
  description : String
deriving DecidableEq, Repr

/-- The `moods` array of `MoodSelector.js`, lines 5–72. -/
def moods : List MoodOption :=
  [⟨"happy", "Happy", "#FFD166", "Upbeat and joyful music"⟩,
   ⟨"sad", "Sad", "#118AB2", "Melancholic and emotional music"⟩,
   ⟨"energetic", "Energetic", "#EF476F", "High-energy and upbeat music"⟩,
   ⟨"calm", "Calm", "#06D6A0", "Peaceful and relaxing music"⟩,
   ⟨"romantic", "Romantic", "#E63946", "Romantic and heartfelt music"⟩,
   ⟨"melancholic", "Melancholic", "#5C4E7A", "Reflective and nostalgic music"⟩]

/-- A recommendation item as consumed by `Dashboard.js` (id plus the
similarity field passed to the card; `none` models a missing field). -/
structure RecItem where
  id : String
  similarity : Option ℚ
deriving DecidableEq, Repr

/-- The props `Dashboard.js` passes to each `RecommendationCard`. -/
structure CardProps where
  songId : String
  similarity : Option ℚ
  reason : String
deriving DecidableEq, Repr

/-- `Dashboard.js` lines 171–178: personalized recommendations are rendered
with reason "Based on your listening history". -/
def personalCards (recs : List RecItem) : List CardProps :=
  recs.map (fun r => ⟨r.id, r.similarity, "Based on your listening history"⟩)

/-- `Dashboard.js` lines 266–273: image recommendations are rendered with
reason "Visual style matches your image". -/
def imageCards (recs : List RecItem) : List CardProps :=
  recs.map (fun r => ⟨r.id, r.similarity, "Visual style matches your image"⟩)

/-- `Dashboard.js` lines 212–219: mood recommendations are rendered with
reason "Matches <mood> mood". -/
def moodCards (mood : String) (recs : List RecItem) : List CardProps :=
  recs.map (fun r => ⟨r.id, r.similarity, "Matches " ++ mood ++ " mood"⟩)

/-- JavaScript `Math.round`: round half toward positive infinity. -/
def jsRound (q : ℚ) : Int := Int.floor (q + 1 / 2)

/-- `RecommendationCard`'s `formatSimilarity` (unnamed part_004, lines 12–15):
`null` for `undefined`/`null` scores, otherwise the rounded percentage string.
All JavaScript integers in range print identically to Lean's `toString`. -/
def formatSimilarity (score : Option ℚ) : Option String :=
  match score with
  | none => none
  | some s => some (toString (jsRound (s * 100)) ++ "%")

/-- JavaScript `String.prototype.padStart(2, "0")`. -/
def padTwo (s : String) : String :=
  String.mk (List.replicate (2 - s.length) '0') ++ s

/-- JavaScript number truncation (toward zero), used by the `%` operator. -/
def jsTrunc (q : ℚ) : Int := if 0 ≤ q then Int.floor q else Int.ceil q

/-- JavaScript remainder `a % b`: `a - b * trunc(a / b)` (sign of the
dividend). -/
def jsMod (a b : ℚ) : ℚ := a - b * jsTrunc (a / b)

/-- `AudioPlayer`'s `formatTime` (unnamed part_003, lines 22–29): "0:00" for
`NaN` (modelled by `none`), otherwise `floor(t/60)`, a colon, and
`floor(t % 60)` padded to two digits. -/
def formatTime (t : Option ℚ) : String :=
  match t with
  | none => "0:00"
  | some s => toString (Int.floor (s / 60)) ++ ":" ++ padTwo (toString (Int.floor (jsMod s 60)))

/-- `AudioPlayer`'s `progressPercentage` (unnamed part_003, line 55):
`duration > 0 ? (currentTime / duration) * 100 : 0`. -/
def progressPercentage (currentTime duration : ℚ) : ℚ :=
  if 0 < duration then currentTime / duration * 100 else 0

/-! ## Basic facts about norms and the ranking order -/

theorem sumSq_nonneg (v : List ℚ) : 0 ≤ sumSq v := by
  apply List.sum_nonneg
  intro y hy
  rcases List.mem_map.mp hy with ⟨x, _, rfl⟩
  exact mul_self_nonneg x

theorem sumSq_pos_of_ne (v : List ℚ) (h : sumSq v ≠ 0) : 0 < sumSq v :=
  lt_of_le_of_ne (sumSq_nonneg v) (Ne.symm h)

theorem scoreLtB_asymm {d1 n1 d2 n2 : ℚ} (h : scoreLtB d1 n1 d2 n2 = true) :
    scoreLtB d2 n2 d1 n1 = false := by
  unfold scoreLtB at h ⊢
  split_ifs at h ⊢ <;> simp_all only [decide_eq_true_eq, decide_eq_false_iff_not] <;>
    first
      | rfl
      | linarith

theorem rankedBefore_asymm {a b : RankedResult} (h : rankedBefore a b = true) :
    rankedBefore b a = false := by
  unfold rankedBefore scoreEqB at h ⊢
  rcases Bool.or_eq_true_iff.mp h with h1 | h1
  · have h2 := scoreLtB_asymm h1
    simp [h1, h2]
  · rcases Bool.and_eq_true_iff.mp h1 with ⟨heq, hid⟩
    rcases Bool.and_eq_true_iff.mp heq with ⟨hn1, hn2⟩
    have hlt : ¬ b.id < a.id := lt_asymm (of_decide_eq_true hid)
    simp only [Bool.not_eq_true'] at hn1 hn2
    simp [hn1, hn2, hlt]

theorem chain'_insertRanked (r : RankedResult) :
    ∀ l : List RankedResult, l.Chain' sortOK → (insertRanked r l).Chain' sortOK
  | [], _ => by simp [insertRanked]
  | x :: xs, h => by
    rw [insertRanked]
    by_cases hb : rankedBefore r x = true
    · rw [if_pos hb]
      exact List.chain'_cons.mpr ⟨rankedBefore_asymm hb, h⟩
    · rw [if_neg hb]
      have hb' : sortOK x r := by simpa [sortOK] using hb
      have hx : xs.Chain' sortOK := (List.chain'_cons'.mp h).2
      have hi := chain'_insertRanked r xs hx
      refine List.chain'_cons'.mpr ⟨?_, hi⟩
      intro y hy
      cases xs with
      | nil =>
        simp only [insertRanked, List.head?_cons, Option.mem_def, Option.some.injEq] at hy
        subst hy
        exact hb'
      | cons z zs =>
        rw [insertRanked] at hy
        by_cases hz : rankedBefore r z = true
        · rw [if_pos hz] at hy
          simp only [List.head?_cons, Option.mem_def, Option.some.injEq] at hy
          subst hy
          exact hb'
        · rw [if_neg hz] at hy
          simp only [List.head?_cons, Option.mem_def, Option.some.injEq] at hy
          subst hy
          exact (List.chain'_cons.mp h).1

theorem chain'_sortRanked : ∀ l : List RankedResult, (sortRanked l).Chain' sortOK
  | [] => List.chain'_nil
  | x :: xs => chain'_insertRanked x (sortRanked xs) (chain'_sortRanked xs)

theorem insertRanked_perm (r : RankedResult) :
    ∀ l : List RankedResult, (insertRanked r l).Perm (r :: l)
  | [] => List.Perm.refl _
  | x :: xs => by
    rw [insertRanked]
    by_cases hb : rankedBefore r x = true
    · rw [if_pos hb]
    · rw [if_neg hb]
      exact ((insertRanked_perm r xs).cons x).trans (List.Perm.swap r x xs)

theorem sortRanked_perm : ∀ l : List RankedResult, (sortRanked l).Perm l
  | [] => List.Perm.refl _
  | x :: xs => (insertRanked_perm x (sortRanked xs)).trans ((sortRanked_perm xs).cons x)

theorem sortRanked_length (l : List RankedResult) : (sortRanked l).length = l.length :=
  (sortRanked_perm l).length_eq

/-! ## Characterizing `rank` on valid inputs -/

theorem collectScores_ok (q : List ℚ) (hq : sumSq q ≠ 0) :
    ∀ cs : List Candidate, (∀ c ∈ cs, sumSq c.vec ≠ 0) →
      collectScores q cs = Except.ok (cs.map (scoreOf q))
  | [], _ => rfl
  | c :: rest, hnz => by
    rw [collectScores, if_neg (hnz c (List.mem_cons_self c rest)), if_neg hq,
      collectScores_ok q hq rest (fun d hd => hnz d (List.mem_cons_of_mem c hd))]
    rfl

theorem rank_ok_of_valid (q : List ℚ) (cs : List Candidate) (k : Int)
    (hq : sumSq q ≠ 0) (hlen : ∀ c ∈ cs, c.vec.length = q.length)
    (hnz : ∀ c ∈ cs, sumSq c.vec ≠ 0) :
    rank q cs k = Except.ok ((sortRanked (cs.map (scoreOf q))).take k.toNat) := by
  have hany : cs.any (fun c => c.vec.length != q.length) = false := by
    rw [List.any_eq_false]
    intro c hc
    simpa using hlen c hc
  rw [rank, if_neg (by simp [hany]), collectScores_ok q hq cs hnz]

/-! ## Claim theorems -/

/-- C1: in the concrete scenario of songs A, B, C with audio vectors [1,0],
[0,1], [1,0] (image/text absent, weights {audio:1}), `rank(fuse4(A), [A,B,C], 2)`
returns exactly [A, C]: A first as self-match with similarity 1, C tied at 1
after A by the ascending-identifier tie-break, and B (similarity 0) excluded
by k = 2; in general every ranking output is ordered descending by cosine
similarity with ties broken by ascending candidate identifier. -/
theorem rank_scenario_and_ordering :
    (fuse ⟨2, 0, 0⟩ ⟨some [1, 0], none, none⟩ ⟨1, 0, 0, NormMode.noNorm⟩ =
        Except.ok [1, 0] ∧
      rank [1, 0] [⟨"A", [1, 0]⟩, ⟨"B", [0, 1]⟩, ⟨"C", [1, 0]⟩] 2 =
        Except.ok [⟨"A", 1, 1⟩, ⟨"C", 1, 1⟩] ∧
      rank [1, 0] [⟨"A", [1, 0]⟩, ⟨"B", [0, 1]⟩, ⟨"C", [1, 0]⟩] 3 =
        Except.ok [⟨"A", 1, 1⟩, ⟨"C", 1, 1⟩, ⟨"B", 0, 1⟩] ∧
      hasScore ⟨"A", 1, 1⟩ 1 ∧ hasScore ⟨"C", 1, 1⟩ 1 ∧ hasScore ⟨"B", 0, 1⟩ 0) ∧
    (∀ (q : List ℚ) (cs : List Candidate) (k : Int) (l : List RankedResult),
      rank q cs k = Except.ok l → l.Chain' sortOK) := by
  constructor
  · refine ⟨?_, ?_, ?_, ?_, ?_, ?_⟩
    · norm_num [fuse, lensValid, lenOK, fuseConcat, weightedPart]
    · norm_num [rank, collectScores, sortRanked, insertRanked, rankedBefore,
        scoreLtB, scoreEqB, sumSq, dot, scoreOf]
      rw [if_pos (show (['A'] : List Char) < ['C'] by decide)]
      rfl
    · norm_num [rank, collectScores, sortRanked, insertRanked, rankedBefore,
        scoreLtB, scoreEqB, sumSq, dot, scoreOf]
      rw [if_pos (show (['A'] : List Char) < ['C'] by decide)]
      rfl
    · simp [hasScore, Real.sqrt_one]
    · simp [hasScore, Real.sqrt_one]
    · simp [hasScore]
  · intro q cs k l hl
    rw [rank] at hl
    by_cases hany : cs.any (fun c => c.vec.length != q.length) = true
    · rw [if_pos hany] at hl
      exact absurd hl (by simp)
    · rw [if_neg hany] at hl
      cases hcol : collectScores q cs with
      | error e =>
        rw [hcol] at hl
        exact absurd hl (by simp)
      | ok rs =>
        rw [hcol] at hl
        have hl2 : (sortRanked rs).take k.toNat = l := by simpa using hl
        rw [← hl2]
        exact (chain'_sortRanked rs).take _

theorem rank_scenario_and_ordering_witness :
    List.Chain' sortOK [⟨"A", 1, 1⟩, ⟨"C", 1, 1⟩] :=
  rank_scenario_and_ordering.2 [1, 0] [⟨"A", [1, 0]⟩, ⟨"B", [0, 1]⟩, ⟨"C", [1, 0]⟩] 2 _
    rank_scenario_and_ordering.1.2.1

/-- C3: on valid input (nonzero-norm query, matching dimensions,
nonzero-norm candidates) `rank(q, cs, k)` returns an ordered sequence of
length `min(k, |cs|)`; `k ≤ 0` yields the empty sequence, `k ≥ |cs|` yields
all candidates ranked (a permutation of all the scored candidates), and an
empty candidate sequence always yields an empty result, never an error. -/
theorem rank_length_contract (q : List ℚ) (cs : List Candidate) (k : Int)
    (hq : sumSq q ≠ 0) (hlen : ∀ c ∈ cs, c.vec.length = q.length)
    (hnz : ∀ c ∈ cs, sumSq c.vec ≠ 0) :
    (∃ l, rank q cs k = Except.ok l ∧ l.length = min k.toNat cs.length ∧
      (k ≤ 0 → l = []) ∧ ((cs.length : Int) ≤ k → l.Perm (cs.map (scoreOf q)))) ∧
    (∀ (q' : List ℚ) (k' : Int), rank q' [] k' = Except.ok []) := by
  constructor
  · refine ⟨(sortRanked (cs.map (scoreOf q))).take k.toNat,
      rank_ok_of_valid q cs k hq hlen hnz, ?_, ?_, ?_⟩
    · rw [List.length_take, sortRanked_length, List.length_map]
    · intro hk
      rw [Int.toNat_of_nonpos hk]
      exact List.take_zero _
    · intro hk
      have h1 : (sortRanked (cs.map (scoreOf q))).length ≤ k.toNat := by
        rw [sortRanked_length, List.length_map]
        omega
      rw [List.take_of_length_le h1]
      exact sortRanked_perm _
  · intro q' k'
    simp [rank, collectScores, sortRanked]

theorem rank_length_contract_witness :
    ∃ l, rank [1] [(⟨"X", [2]⟩ : Candidate)] 1 = Except.ok l ∧
      l.length = min (Int.toNat 1) [(⟨"X", [2]⟩ : Candidate)].length ∧
      ((1 : Int) ≤ 0 → l = []) ∧
      (([(⟨"X", [2]⟩ : Candidate)].length : Int) ≤ 1 →
        l.Perm ([(⟨"X", [2]⟩ : Candidate)].map (scoreOf [1]))) :=
  (rank_length_contract [1] [(⟨"X", [2]⟩ : Candidate)] 1 (by norm_num [sumSq])
    (by intro c hc; rw [List.mem_singleton] at hc; subst hc; rfl)
    (by intro c hc; rw [List.mem_singleton] at hc; subst hc; norm_num [sumSq])).1

/-- C4: when the query and some candidate's fused vector differ in length,
`rank` fails with `DimensionMismatchError` (no silent coercion), and cosine
similarity between vectors of different dimensionality is never computed to a
value. -/
theorem rank_dimension_mismatch (q : List ℚ) (cs : List Candidate) (k : Int)
    (h : ∃ c ∈ cs, c.vec.length ≠ q.length) :
    rank q cs k = Except.error EngineError.dimensionMismatch ∧
    (∀ a b : List ℚ, a.length ≠ b.length → cosineSimParts a b = none) := by
  constructor
  · have hany : cs.any (fun c => c.vec.length != q.length) = true := by
      rw [List.any_eq_true]
      rcases h with ⟨c, hc, hne⟩
      exact ⟨c, hc, by simpa using hne⟩
    rw [rank, if_pos hany]
  · intro a b hab
    rw [cosineSimParts, if_pos hab]

/-! ## Mood labels and the personalization centroid -/

theorem lookup_ok_iff (label : String) :
    ∀ l : List (String × List ℚ),
      (∃ v, l.lookup label = some v) ↔ label ∈ l.map Prod.fst
  | [] => by simp [List.lookup]
  | (k, w) :: rest => by
    by_cases hk : label = k
    · subst hk
      simp [List.lookup]
    · have hbeq : (label == k) = false := beq_false_of_ne hk
      simp [List.lookup, hbeq, hk, lookup_ok_iff label rest]

theorem vecAdd_getD : ∀ (a b : List ℚ) (i : Nat), i < a.length → i < b.length →
    (vecAdd a b).getD i 0 = a.getD i 0 + b.getD i 0
  | [], _, i, ha, _ => absurd ha (by simp)
  | _ :: _, [], i, _, hb => absurd hb (by simp)
  | x :: a, y :: b, 0, _, _ => by simp [vecAdd]
  | x :: a, y :: b, i + 1, ha, hb => by
    simp only [vecAdd, List.zipWith_cons_cons, List.getD_cons_succ]
    exact vecAdd_getD a b i (by simpa using ha) (by simpa using hb)

theorem vecScale_getD : ∀ (v : List ℚ) (c : ℚ) (i : Nat), i < v.length →
    (vecScale c v).getD i 0 = c * v.getD i 0
  | [], _, i, h => absurd h (by simp)
  | x :: v, c, 0, _ => by simp [vecScale]
  | x :: v, c, i + 1, h => by
    simp only [vecScale, List.map_cons, List.getD_cons_succ]
    exact vecScale_getD v c i (by simpa using h)

theorem sumVecs_length (n : Nat) : ∀ vs : List (List ℚ), vs ≠ [] →
    (∀ v ∈ vs, v.length = n) → (sumVecs vs).length = n
  | [], h, _ => absurd rfl h
  | [v], _, hl => by simpa [sumVecs] using hl v (by simp)
  | v :: w :: rest, _, hl => by
    rw [sumVecs, vecAdd, List.length_zipWith]
    have h1 : v.length = n := hl v (by simp)
    have h2 : (sumVecs (w :: rest)).length = n :=
      sumVecs_length n (w :: rest) (List.cons_ne_nil w rest)
        (fun u hu => hl u (List.mem_cons_of_mem v hu))
    omega

theorem sumVecs_getD (n : Nat) : ∀ (vs : List (List ℚ)) (i : Nat), vs ≠ [] →
    (∀ v ∈ vs, v.length = n) → i < n →
    (sumVecs vs).getD i 0 = (vs.map fun v => v.getD i 0).sum
  | [], i, h, _, _ => absurd rfl h
  | [v], i, _, _, _ => by simp [sumVecs]
  | v :: w :: rest, i, _, hl, hi => by
    rw [sumVecs,
      vecAdd_getD v (sumVecs (w :: rest)) i
        (by rw [hl v (by simp)]; exact hi)
        (by
          rw [sumVecs_length n (w :: rest) (List.cons_ne_nil w rest)
            (fun u hu => hl u (List.mem_cons_of_mem v hu))]
          exact hi),
      sumVecs_getD n (w :: rest) i (List.cons_ne_nil w rest)
        (fun u hu => hl u (List.mem_cons_of_mem v hu)) hi]
    simp

theorem getD_of_lt (l : List ℚ) (i : Nat) (h : i < l.length) : l.getD i 0 = l[i] := by
  rw [List.getD_eq_getElem?_getD, List.getElem?_eq_getElem h, Option.getD_some]

theorem centroid_eq_specMean (n : Nat) (vs : List (List ℚ)) (hne : vs ≠ [])
    (hl : ∀ v ∈ vs, v.length = n) : centroid vs = specMeanVec n vs := by
  have hclen : (centroid vs).length = n := by
    rw [centroid, vecScale, List.length_map, sumVecs_length n vs hne hl]
  have hslen : (specMeanVec n vs).length = n := by
    rw [specMeanVec, List.length_map, List.length_range]
  apply List.ext_getElem (by rw [hclen, hslen])
  intro i h1 h2
  have hi : i < n := by rw [hclen] at h1; exact h1
  have hc : (centroid vs).getD i 0 =
      (vs.map fun v => v.getD i 0).sum / (vs.length : ℚ) := by
    rw [centroid,
      vecScale_getD (sumVecs vs) _ i (by rw [sumVecs_length n vs hne hl]; exact hi),
      sumVecs_getD n vs i hne hl hi, one_div, inv_mul_eq_div]
  have hm : (specMeanVec n vs).getD i 0 =
      (vs.map fun v => v.getD i 0).sum / (vs.length : ℚ) := by
    rw [specMeanVec, getD_of_lt _ i (by rw [List.length_map, List.length_range]; exact hi),
      List.getElem_map, List.getElem_range]
  rw [← getD_of_lt _ i h1, ← getD_of_lt _ i h2, hc, hm]

theorem fuseAll_ok_length (dims : Dims) (p : FusionPolicy) :
    ∀ (liked : List ModalityInput) (vs : List (List ℚ)),
      fuseAll dims p liked = Except.ok vs → vs.length = liked.length
  | [], vs, h => by
    have h2 : ([] : List (List ℚ)) = vs := by simpa [fuseAll] using h
    rw [← h2]
    rfl
  | i :: rest, vs, h => by
    rw [fuseAll] at h
    cases hf : fuse dims i p with
    | error e =>
      rw [hf] at h
      exact absurd h (by simp)
    | ok v =>
      rw [hf] at h
      cases hr : fuseAll dims p rest with
      | error e =>
        rw [hr] at h
        exact absurd h (by simp)
      | ok vs2 =>
        rw [hr] at h
        have hcons : v :: vs2 = vs := by simpa using h
        rw [← hcons]
        simp [fuseAll_ok_length dims p rest vs2 hr]

/-- C5: `vectorForMood` succeeds exactly on the closed documented label set
and fails with `UnknownMoodError` outside it, so
`recommendByMood("unknown-mood", k)` raises `UnknownMoodError`; and the mood
labels the UI's `MoodSelector` offers are exactly the six documented ones. -/
theorem mood_label_set :
    (∀ label : String,
      (∃ v, vectorForMood label = Except.ok v) ↔ label ∈ moodTable.map Prod.fst) ∧
    (∀ (cs : List Candidate) (k : Int),
      recommendByMood "unknown-mood" cs k = Except.error EngineError.unknownMood) ∧
    moods.map MoodOption.id =
      ["happy", "sad", "energetic", "calm", "romantic", "melancholic"] ∧
    moodTable.map Prod.fst = moods.map MoodOption.id := by
  refine ⟨?_, ?_, rfl, rfl⟩
  · intro label
    cases hl : moodTable.lookup label with
    | some v =>
      have hmem := (lookup_ok_iff label moodTable).mp ⟨v, hl⟩
      simp [vectorForMood, hl, hmem]
    | none =>
      have hmem : ¬ label ∈ moodTable.map Prod.fst := by
        intro hm
        rcases (lookup_ok_iff label moodTable).mpr hm with ⟨v, hv⟩
        rw [hl] at hv
        exact absurd hv (by simp)
      simp [vectorForMood, hl, hmem]
  · intro cs k
    rfl

theorem mood_label_set_witness : ∃ v, vectorForMood "happy" = Except.ok v :=
  (mood_label_set.1 "happy").mpr (by decide)

/-- C6: for a user with zero liked/played songs `recommendPersonalized` fails
with `InsufficientHistoryError` (the empty centroid is never silently
substituted), and for at least one liked song the personalization query is the
componentwise mean of the liked songs' fused vectors, each fused under the
by-song policy. -/
theorem personalized_centroid :
    (∀ (dims : Dims) (p : FusionPolicy) (cs : List Candidate) (k : Int),
      recommendPersonalized dims p [] cs k =
        Except.error EngineError.insufficientHistory) ∧
    (∀ (dims : Dims) (p : FusionPolicy) (liked : List ModalityInput)
        (vs : List (List ℚ)) (n : Nat), liked ≠ [] →
      fuseAll dims p liked = Except.ok vs → (∀ v ∈ vs, v.length = n) →
      personalizedQuery dims p liked = Except.ok (specMeanVec n vs)) := by
  constructor
  · intro dims p cs k
    rfl
  · intro dims p liked vs n hne hfa hl
    have hvl := fuseAll_ok_length dims p liked vs hfa
    have hvs : vs ≠ [] := by
      intro hcontra
      subst hcontra
      have hz : liked.length = 0 := by simpa using hvl.symm
      exact hne (List.length_eq_zero.mp hz)
    cases liked with
    | nil => exact absurd rfl hne
    | cons i rest =>
      rw [personalizedQuery, hfa]
      show Except.ok (centroid vs) = Except.ok (specMeanVec n vs)
      rw [centroid_eq_specMean n vs hvs hl]

theorem personalized_centroid_witness :
    personalizedQuery ⟨1, 0, 0⟩ ⟨1, 0, 0, NormMode.noNorm⟩ [⟨some [2], none, none⟩] =
      Except.ok (specMeanVec 1 [[2]]) :=
  personalized_centroid.2 ⟨1, 0, 0⟩ ⟨1, 0, 0, NormMode.noNorm⟩ [⟨some [2], none, none⟩]
    [[2]] 1 (by simp)
    (by
      have h1 : fuse ⟨1, 0, 0⟩ ⟨some [2], none, none⟩ ⟨1, 0, 0, NormMode.noNorm⟩ =
          Except.ok [2] := by
        norm_num [fuse, lensValid, lenOK, fuseConcat, weightedPart]
      simp [fuseAll, h1])
    (by intro v hv; rw [List.mem_singleton] at hv; subst hv; rfl)

theorem sumSq_cast (v : List ℚ) :
    ((sumSq v : ℚ) : ℝ) = ((v.map fun x => ((x : ℚ) : ℝ)).map fun y => y * y).sum := by
  rw [sumSq, show ((((v.map fun x => x * x).sum : ℚ)) : ℝ) =
      ((v.map fun x => x * x).map fun q => ((q : ℚ) : ℝ)).sum from
    map_list_sum (Rat.castHom ℝ) _]
  rw [List.map_map, List.map_map]
  apply congrArg List.sum
  apply List.map_congr_left
  intro x _
  simp only [Function.comp_apply]
  push_cast
  ring

theorem normalized_sumSq_one (v : List ℚ) (h : 0 < sumSq v) :
    ((v.map fun x => ((x : ℚ) : ℝ) / Real.sqrt ((sumSq v : ℚ) : ℝ)).map
        fun y => y * y).sum = 1 := by
  have hs : (0 : ℝ) < ((sumSq v : ℚ) : ℝ) := by exact_mod_cast h
  have hsqrt : Real.sqrt ((sumSq v : ℚ) : ℝ) * Real.sqrt ((sumSq v : ℚ) : ℝ) =
      ((sumSq v : ℚ) : ℝ) := Real.mul_self_sqrt hs.le
  have hmap : ((v.map fun x => ((x : ℚ) : ℝ) / Real.sqrt ((sumSq v : ℚ) : ℝ)).map
        fun y => y * y) =
      v.map fun x => (((x : ℚ) : ℝ) * ((x : ℚ) : ℝ)) * (((sumSq v : ℚ) : ℝ))⁻¹ := by
    rw [List.map_map]
    apply List.map_congr_left
    intro x _
    simp only [Function.comp_apply, div_eq_mul_inv]
    rw [mul_mul_mul_comm, ← mul_inv, hsqrt]
  rw [hmap, List.sum_map_mul_right]
  have hsum : (v.map fun x => ((x : ℚ) : ℝ) * ((x : ℚ) : ℝ)).sum =
      ((sumSq v : ℚ) : ℝ) := by
    rw [sumSq_cast, List.map_map]
    rfl
  rw [hsum, mul_inv_cancel₀ (ne_of_gt hs)]

/-- C2: for every policy whose normalization is L2-unit-norm and every
modality input of valid lengths, `fuse` either succeeds — and then the
L2-normalization of the returned vector has Euclidean norm exactly 1 — or
fails with `DegenerateVectorError`, and it fails with that error exactly when
the concatenated weighted vector has zero norm. -/
theorem fuse_l2_unit_norm (dims : Dims) (inp : ModalityInput) (p : FusionPolicy)
    (hp : p.normalization = NormMode.l2UnitNorm)
    (hv : lensValid dims inp = true) :
    (fuse dims inp p = Except.error EngineError.degenerateVector ↔
      sumSq (fuseConcat dims inp p) = 0) ∧
    (∀ v, fuse dims inp p = Except.ok v →
      v = fuseConcat dims inp p ∧ 0 < sumSq v ∧
      ((v.map fun x => ((x : ℚ) : ℝ) / Real.sqrt ((sumSq v : ℚ) : ℝ)).map
          fun y => y * y).sum = 1) ∧
    (∀ e, fuse dims inp p = Except.error e → e = EngineError.degenerateVector) := by
  rw [fuse, if_pos hv, hp]
  by_cases hz : sumSq (fuseConcat dims inp p) = 0
  · rw [if_pos hz]
    refine ⟨by simp [hz], ?_, ?_⟩
    · intro v hv2
      exact absurd hv2 (by simp)
    · intro e he
      simpa using he.symm
  · rw [if_neg hz]
    refine ⟨by simp [hz], ?_, ?_⟩
    · intro v hv2
      have hveq : fuseConcat dims inp p = v := by simpa using hv2
      subst hveq
      exact ⟨rfl, sumSq_pos_of_ne _ hz,
        normalized_sumSq_one _ (sumSq_pos_of_ne _ hz)⟩
    · intro e he
      exact absurd he (by simp)

theorem fuse_l2_unit_norm_witness :
    (fuse ⟨2, 0, 0⟩ ⟨some [3, 4], none, none⟩ ⟨1, 0, 0, NormMode.l2UnitNorm⟩ =
        Except.error EngineError.degenerateVector ↔
      sumSq (fuseConcat ⟨2, 0, 0⟩ ⟨some [3, 4], none, none⟩
        ⟨1, 0, 0, NormMode.l2UnitNorm⟩) = 0) ∧
    (∀ v, fuse ⟨2, 0, 0⟩ ⟨some [3, 4], none, none⟩ ⟨1, 0, 0, NormMode.l2UnitNorm⟩ =
        Except.ok v →
      v = fuseConcat ⟨2, 0, 0⟩ ⟨some [3, 4], none, none⟩ ⟨1, 0, 0, NormMode.l2UnitNorm⟩ ∧
      0 < sumSq v ∧
      ((v.map fun x => ((x : ℚ) : ℝ) / Real.sqrt ((sumSq v : ℚ) : ℝ)).map
          fun y => y * y).sum = 1) ∧
    (∀ e, fuse ⟨2, 0, 0⟩ ⟨some [3, 4], none, none⟩ ⟨1, 0, 0, NormMode.l2UnitNorm⟩ =
        Except.error e → e = EngineError.degenerateVector) :=
  fuse_l2_unit_norm ⟨2, 0, 0⟩ ⟨some [3, 4], none, none⟩ ⟨1, 0, 0, NormMode.l2UnitNorm⟩
    rfl (by decide)

theorem rank_dimension_mismatch_witness :
    rank [1] [(⟨"X", [1, 2]⟩ : Candidate)] 5 = Except.error EngineError.dimensionMismatch ∧
    (∀ a b : List ℚ, a.length ≠ b.length → cosineSimParts a b = none) :=
  rank_dimension_mismatch [1] [(⟨"X", [1, 2]⟩ : Candidate)] 5
    ⟨⟨"X", [1, 2]⟩, List.mem_singleton.mpr rfl, by decide⟩

/-! ## Frontend claims -/

/-- C7 counterexample: the reason text `Dashboard.js` attaches in by-image
mode is "Visual style matches your image", not the claimed "visual style
match", and in personalized mode it is "Based on your listening history" with
a capital B, not the claimed all-lowercase text. -/
theorem dashboard_reason_counterexample :
    (imageCards [⟨"s1", some 1⟩]).map CardProps.reason =
      ["Visual style matches your image"] ∧
    "Visual style matches your image" ≠ "visual style match" ∧
    (personalCards [⟨"s1", some 1⟩]).map CardProps.reason =
      ["Based on your listening history"] ∧
    "Based on your listening history" ≠ "based on your listening history" :=
  ⟨rfl, by decide, rfl, by decide⟩

/-- C7 (amended): every result rendered in personalized mode carries the
explanation text "Based on your listening history", and every result rendered
in by-image mode carries "Visual style matches your image". -/
theorem dashboard_reason_texts :
    (∀ (recs : List RecItem) (c : CardProps), c ∈ personalCards recs →
      c.reason = "Based on your listening history") ∧
    (∀ (recs : List RecItem) (c : CardProps), c ∈ imageCards recs →
      c.reason = "Visual style matches your image") := by
  constructor
  · intro recs c hc
    rw [personalCards] at hc
    rcases List.mem_map.mp hc with ⟨r, _, rfl⟩
    rfl
  · intro recs c hc
    rw [imageCards] at hc
    rcases List.mem_map.mp hc with ⟨r, _, rfl⟩
    rfl

theorem dashboard_reason_texts_witness :
    (⟨"s1", some 1, "Based on your listening history"⟩ : CardProps).reason =
      "Based on your listening history" :=
  dashboard_reason_texts.1 [⟨"s1", some 1⟩]
    ⟨"s1", some 1, "Based on your listening history"⟩ (by simp [personalCards])

/-- C8: `formatSimilarity` returns null exactly for undefined/null scores;
for a number `s` it returns the string of `Math.round(s * 100)` followed by
"%", so a score in [-1, 1] renders as an integer percentage between -100 and
100, with no clamping of negative scores (-1/2 renders as "-50%"). -/
theorem formatSimilarity_spec :
    formatSimilarity none = none ∧
    (∀ s : ℚ, formatSimilarity (some s) = some (toString (jsRound (s * 100)) ++ "%")) ∧
    (∀ s : ℚ, -1 ≤ s → s ≤ 1 → -100 ≤ jsRound (s * 100) ∧ jsRound (s * 100) ≤ 100) ∧
    formatSimilarity (some (-1 / 2)) = some "-50%" := by
  refine ⟨rfl, fun s => rfl, ?_, ?_⟩
  · intro s h1 h2
    constructor
    · have hle : (-199 / 2 : ℚ) ≤ s * 100 + 1 / 2 := by linarith
      have hmono := Int.floor_le_floor hle
      have hval : (⌊(-199 / 2 : ℚ)⌋ : Int) = -100 := by norm_num
      rw [jsRound]
      omega
    · have hle : s * 100 + 1 / 2 ≤ (201 / 2 : ℚ) := by linarith
      have hmono := Int.floor_le_floor hle
      have hval : (⌊(201 / 2 : ℚ)⌋ : Int) = 100 := by norm_num
      rw [jsRound]
      omega
  · norm_num [formatSimilarity, jsRound]
    decide

theorem formatSimilarity_spec_witness :
    -100 ≤ jsRound ((-1 / 2 : ℚ) * 100) ∧ jsRound ((-1 / 2 : ℚ) * 100) ≤ 100 :=
  formatSimilarity_spec.2.2.1 (-1 / 2) (by norm_num) (by norm_num)

theorem padTwo_length_two (s : Int) (h0 : 0 ≤ s) (h60 : s < 60) :
    (padTwo (toString s)).length = 2 := by
  interval_cases s <;> decide

/-- C9: `formatTime` returns "0:00" for NaN, and for every non-negative
finite number of seconds `t` it returns `floor(t/60)`, a colon, and
`floor(t mod 60)` zero-padded to two digits; the seconds field is always
exactly two digits and its value is below 60. -/
theorem formatTime_spec :
    formatTime none = "0:00" ∧
    (∀ t : ℚ, 0 ≤ t →
      formatTime (some t) =
        toString (⌊t / 60⌋ : Int) ++ ":" ++
          padTwo (toString (⌊t - 60 * (⌊t / 60⌋ : Int)⌋ : Int)) ∧
      0 ≤ (⌊t - 60 * (⌊t / 60⌋ : Int)⌋ : Int) ∧
      (⌊t - 60 * (⌊t / 60⌋ : Int)⌋ : Int) < 60 ∧
      (padTwo (toString (⌊t - 60 * (⌊t / 60⌋ : Int)⌋ : Int))).length = 2) := by
  refine ⟨rfl, ?_⟩
  intro t ht
  have hmod : jsMod t 60 = t - 60 * (⌊t / 60⌋ : Int) := by
    rw [jsMod, jsTrunc, if_pos (by positivity)]
  have hfr : t - 60 * ((⌊t / 60⌋ : Int) : ℚ) = 60 * Int.fract (t / 60) := by
    rw [Int.fract]
    ring
  have h0 : (0 : ℚ) ≤ t - 60 * (⌊t / 60⌋ : Int) := by
    rw [hfr]
    have := Int.fract_nonneg (t / 60)
    linarith
  have h60 : t - 60 * ((⌊t / 60⌋ : Int) : ℚ) < 60 := by
    rw [hfr]
    have := Int.fract_lt_one (t / 60)
    linarith
  have hfl0 : 0 ≤ (⌊t - 60 * (⌊t / 60⌋ : Int)⌋ : Int) := Int.floor_nonneg.mpr h0
  have hfl60 : (⌊t - 60 * (⌊t / 60⌋ : Int)⌋ : Int) < 60 := by
    apply Int.floor_lt.mpr
    push_cast
    exact h60
  refine ⟨?_, hfl0, hfl60, padTwo_length_two _ hfl0 hfl60⟩
  rw [formatTime, hmod]

theorem formatTime_spec_witness :
    formatTime (some (75 : ℚ)) =
      toString (⌊(75 : ℚ) / 60⌋ : Int) ++ ":" ++
        padTwo (toString (⌊(75 : ℚ) - 60 * (⌊(75 : ℚ) / 60⌋ : Int)⌋ : Int)) ∧
    0 ≤ (⌊(75 : ℚ) - 60 * (⌊(75 : ℚ) / 60⌋ : Int)⌋ : Int) ∧
    (⌊(75 : ℚ) - 60 * (⌊(75 : ℚ) / 60⌋ : Int)⌋ : Int) < 60 ∧
    (padTwo (toString (⌊(75 : ℚ) - 60 * (⌊(75 : ℚ) / 60⌋ : Int)⌋ : Int))).length = 2 :=
  formatTime_spec.2 75 (by norm_num)

/-- C10: the progress computation divides by the duration only under the
guard `duration > 0` and yields 0 otherwise, and under
`0 ≤ currentTime ≤ duration` the progress percentage lies in [0, 100]. -/
theorem progressPercentage_spec :
    (∀ c d : ℚ, ¬ 0 < d → progressPercentage c d = 0) ∧
    (∀ c d : ℚ, 0 ≤ c → c ≤ d →
      0 ≤ progressPercentage c d ∧ progressPercentage c d ≤ 100) := by
  constructor
  · intro c d hd
    rw [progressPercentage, if_neg hd]
  · intro c d h0 hcd
    by_cases hd : 0 < d
    · rw [progressPercentage, if_pos hd]
      constructor
      · exact mul_nonneg (div_nonneg h0 hd.le) (by norm_num)
      · have hone : c / d ≤ 1 := (div_le_one hd).mpr hcd
        calc c / d * 100 ≤ 1 * 100 :=
              mul_le_mul_of_nonneg_right hone (by norm_num)
          _ = 100 := one_mul 100
    · rw [progressPercentage, if_neg hd]
      norm_num

theorem progressPercentage_spec_witness :
    0 ≤ progressPercentage 1 2 ∧ progressPercentage 1 2 ≤ 100 :=
  progressPercentage_spec.2 1 2 (by norm_num) (by norm_num)

end MoodMuse
